import Mathlib

/-!
Verification of the simple-rust-blockchain node (src/main.rs, src/p2p.rs).

Shallow embedding conventions:
* Rust `u64` / `i64` become `Nat` / `Int`; bytes are `Nat` values below 256.
* Rust `String` becomes Lean `String`; where the code manipulates the
  characters of a string we work with its `List Char`.
* A Rust `panic!` / `expect` failure is modelled by `Option`: `none` is the
  panic, `some v` the normal result `v`.
-/

namespace SimpleChain

/-- Accumulator loop for rendering a positive number in binary, most
significant bit first: the Rust `format!` with the `b` specifier emits no
fixed-width zero padding, so this stops as soon as the quotient reaches 0.
The first argument is structural fuel; any fuel at least the number being
rendered is enough, so the rendering below passes the number itself. -/
def binCore : Nat → Nat → List Char → List Char
  | 0, _, acc => acc
  | fuel+1, n, acc =>
    if n = 0 then acc
    else binCore fuel (n / 2) ((if n % 2 = 1 then '1' else '0') :: acc)

/-- Binary rendering of one byte, as Rust `format!` with the `b` specifier:
`0` renders as `"0"`, any positive value renders with a leading `1` and no
zero padding. -/
def binDigits (n : Nat) : List Char :=
  match n with
  | 0 => ['0']
  | m+1 => binCore (m+1) (m+1) []

/-- `hash_to_bin` from src/main.rs lines 41-47: renders every byte of the
digest in (unpadded) binary and concatenates the renderings. -/
def hash_to_bin (hash : List Nat) : List Char :=
  (hash.map binDigits).flatten

/-- `DIFF_PREFIX` from src/main.rs line 24: the two-character difficulty
target `"00"`, as the character list the rendering is compared against. -/
def DIFF_PREF : List Char := ['0', '0']

/-- Value of one hexadecimal character, `none` when the character is not a
hex digit (mirrors the `hex` crate, which accepts both cases). -/
def hexDigitVal (c : Char) : Option Nat :=
  if '0' ≤ c ∧ c ≤ '9' then some (c.toNat - '0'.toNat)
  else if 'a' ≤ c ∧ c ≤ 'f' then some (c.toNat - 'a'.toNat + 10)
  else if 'A' ≤ c ∧ c ≤ 'F' then some (c.toNat - 'A'.toNat + 10)
  else none

/-- `hex::decode` on the characters of a string: two hex characters per
byte; an odd-length input or a non-hex character is an error (`none`). -/
def hexDecodeList : List Char → Option (List Nat)
  | [] => some []
  | [_] => none
  | a :: b :: rest =>
    match hexDigitVal a, hexDigitVal b, hexDecodeList rest with
    | some hi, some lo, some bs => some ((16 * hi + lo) :: bs)
    | _, _, _ => none

/-- `hex::decode` applied to a Rust string. -/
def hexDecode (s : String) : Option (List Nat) :=
  hexDecodeList s.data

/-- Lower-case hex character of a value below 16 (as `hex::encode` emits). -/
def hexChar (n : Nat) : Char :=
  if n < 10 then Char.ofNat ('0'.toNat + n) else Char.ofNat ('a'.toNat + n - 10)

/-- `hex::encode`: two lower-case hex characters per byte. -/
def hexEncode (bytes : List Nat) : String :=
  ⟨(bytes.map (fun b => [hexChar (b / 16), hexChar (b % 16)])).flatten⟩

/-! ### UTF-8 and the canonical JSON encoding fed to the hash

`calc_hash` (src/main.rs lines 49-60) hashes the `to_string` rendering of the
`serde_json::json!` object `{id, previous_hash, data, timestamp, nonce}`.
With serde_json's default map representation the keys come out sorted
alphabetically (`data`, `id`, `nonce`, `previous_hash`, `timestamp`) in the
compact rendering with no spaces, and the hash is taken of its UTF-8 bytes. -/

/-- UTF-8 encoding of one character (Rust `str::as_bytes` is UTF-8). -/
def charUtf8 (c : Char) : List Nat :=
  let n := c.toNat
  if n < 128 then [n]
  else if n < 2048 then [192 + n / 64, 128 + n % 64]
  else if n < 65536 then [224 + n / 4096, 128 + (n / 64) % 64, 128 + n % 64]
  else [240 + n / 262144, 128 + (n / 4096) % 64, 128 + (n / 64) % 64, 128 + n % 64]

/-- UTF-8 bytes of a string. -/
def utf8Bytes (s : String) : List Nat :=
  (s.data.map charUtf8).flatten

/-- serde_json's escaping of one character inside a JSON string literal:
quote and backslash get a backslash escape, control characters get the short
escapes or a `\u00XX` escape, everything else passes through. -/
def jsonEscapeChar (c : Char) : List Char :=
  if c = '"' then ['\\', '"']
  else if c = '\\' then ['\\', '\\']
  else if c.toNat < 32 then
    match c.toNat with
    | 8 => ['\\', 'b']
    | 9 => ['\\', 't']
    | 10 => ['\\', 'n']
    | 12 => ['\\', 'f']
    | 13 => ['\\', 'r']
    | n => ['\\', 'u', '0', '0', hexChar (n / 16), hexChar (n % 16)]
  else [c]

/-- A JSON string literal as serde_json renders it. -/
def jsonQuote (s : String) : String :=
  "\"" ++ String.mk (s.data.map jsonEscapeChar).flatten ++ "\""

/-- The exact string `serde_json::json!({...}).to_string()` produces in
`calc_hash`: compact rendering, keys in serde_json's (sorted) map order. -/
def canonicalJson (id : Nat) (timestamp : Int) (prev_hash data : String) (nonce : Nat) : String :=
  "\x7b\"data\":" ++ jsonQuote data ++
  ",\"id\":" ++ toString id ++
  ",\"nonce\":" ++ toString nonce ++
  ",\"previous_hash\":" ++ jsonQuote prev_hash ++
  ",\"timestamp\":" ++ toString timestamp ++ "\x7d"

/-! ### SHA-256 (the `sha2` crate's `Sha256`), over byte lists -/

/-- Truncation to a 32-bit word. -/
def w32 (n : Nat) : Nat := n % 4294967296

/-- Right rotation of a 32-bit word by `k` bits. -/
def rotr (k w : Nat) : Nat := w / 2 ^ k + (w % 2 ^ k) * 2 ^ (32 - k)

/-- SHA-256 `Ch` function. -/
def shaCh (x y z : Nat) : Nat := (x &&& y) ^^^ ((x ^^^ 4294967295) &&& z)

/-- SHA-256 `Maj` function. -/
def shaMaj (x y z : Nat) : Nat := (x &&& y) ^^^ (x &&& z) ^^^ (y &&& z)

/-- SHA-256 Σ₀. -/
def bigSigma0 (x : Nat) : Nat := rotr 2 x ^^^ rotr 13 x ^^^ rotr 22 x

/-- SHA-256 Σ₁. -/
def bigSigma1 (x : Nat) : Nat := rotr 6 x ^^^ rotr 11 x ^^^ rotr 25 x

/-- SHA-256 σ₀. -/
def smallSigma0 (x : Nat) : Nat := rotr 7 x ^^^ rotr 18 x ^^^ x / 8

/-- SHA-256 σ₁. -/
def smallSigma1 (x : Nat) : Nat := rotr 17 x ^^^ rotr 19 x ^^^ x / 1024

/-- The 64 SHA-256 round constants (FIPS 180-4, written in decimal). -/
def K64 : List Nat :=
  [1116352408, 1899447441, 3049323471, 3921009573,
   961987163, 1508970993, 2453635748, 2870763221,
   3624381080, 310598401, 607225278, 1426881987,
   1925078388, 2162078206, 2614888103, 3248222580,
   3835390401, 4022224774, 264347078, 604807628,
   770255983, 1249150122, 1555081692, 1996064986,
   2554220882, 2821834349, 2952996808, 3210313671,
   3336571891, 3584528711, 113926993, 338241895,
   666307205, 773529912, 1294757372, 1396182291,
   1695183700, 1986661051, 2177026350, 2456956037,
   2730485921, 2820302411, 3259730800, 3345764771,
   3516065817, 3600352804, 4094571909, 275423344,
   430227734, 506948616, 659060556, 883997877,
   958139571, 1322822218, 1537002063, 1747873779,
   1955562222, 2024104815, 2227730452, 2361852424,
   2428436474, 2756734187, 3204031479, 3329325298]

/-- The SHA-256 initial state (FIPS 180-4, written in decimal). -/
def H0 : List Nat :=
  [1779033703, 3144134277, 1013904242, 2773480762,
   1359893119, 2600822924, 528734635, 1541459225]

/-- Big-endian 8-byte rendering of the message bit length. -/
def be8 (n : Nat) : List Nat :=
  [n / 2 ^ 56 % 256, n / 2 ^ 48 % 256, n / 2 ^ 40 % 256, n / 2 ^ 32 % 256,
   n / 2 ^ 24 % 256, n / 2 ^ 16 % 256, n / 2 ^ 8 % 256, n % 256]

/-- SHA-256 padding: `0x80`, zeros to 56 mod 64, then the bit length. -/
def padMessage (msg : List Nat) : List Nat :=
  msg ++ 128 :: List.replicate ((119 - msg.length % 64) % 64) 0 ++ be8 (8 * msg.length)

/-- Group bytes into big-endian 32-bit words. -/
def bytesToWords : List Nat → List Nat
  | a :: b :: c :: d :: rest => (((a * 256 + b) * 256 + c) * 256 + d) :: bytesToWords rest
  | _ => []

/-- One extension step of the message schedule: append
`σ₁(W[n-2]) + W[n-7] + σ₀(W[n-15]) + W[n-16]`. -/
def stepW (acc : List Nat) : List Nat :=
  let n := acc.length
  acc ++ [w32 (smallSigma1 (acc.getD (n - 2) 0) + acc.getD (n - 7) 0 +
               smallSigma0 (acc.getD (n - 15) 0) + acc.getD (n - 16) 0)]

/-- Extend a 16-word block to the 64-word message schedule. -/
def schedule (ws : List Nat) : List Nat :=
  (List.range 48).foldl (fun acc _ => stepW acc) ws

/-- One SHA-256 round on the 8-word working state; the pair carries the
round constant and the schedule word. -/
def shaRound (st : List Nat) (kw : Nat × Nat) : List Nat :=
  match st with
  | [a, b, c, d, e, f, g, h] =>
    let t1 := w32 (h + bigSigma1 e + shaCh e f g + kw.1 + kw.2)
    let t2 := w32 (bigSigma0 a + shaMaj a b c)
    [w32 (t1 + t2), a, b, c, w32 (d + t1), e, f, g]
  | other => other

/-- Compress one 16-word block into the running 8-word state. -/
def compress (h : List Nat) (block : List Nat) : List Nat :=
  let st := (K64.zip (schedule block)).foldl shaRound h
  (h.zip st).map (fun p => w32 (p.1 + p.2))

/-- Fold `compress` over the 16-word blocks of the padded message; the fuel
argument (instantiated with the word-list length) makes the recursion
structural while `drop 16` shrinks the list. -/
def blocksLoop : Nat → List Nat → List Nat → List Nat
  | 0, _, h => h
  | fuel+1, ws, h =>
    match ws with
    | [] => h
    | _ => blocksLoop fuel (ws.drop 16) (compress h (ws.take 16))

/-- Big-endian 4-byte rendering of a 32-bit word. -/
def be4 (w : Nat) : List Nat := [w / 2 ^ 24 % 256, w / 2 ^ 16 % 256, w / 2 ^ 8 % 256, w % 256]

/-- SHA-256 of a byte list, as the 32 digest bytes. -/
def sha256 (msg : List Nat) : List Nat :=
  let ws := bytesToWords (padMessage msg)
  ((blocksLoop ws.length ws H0).map be4).flatten

/-- `calc_hash` from src/main.rs lines 49-60: SHA-256 of the canonical JSON
rendering of the block fields (digest returned as raw bytes). -/
def calc_hash (id : Nat) (timestamp : Int) (prev_hash data : String) (nonce : Nat) : List Nat :=
  sha256 (utf8Bytes (canonicalJson id timestamp prev_hash data nonce))

/-! ### The block model and the App operations (src/main.rs) -/

/-- `Block` from src/main.rs lines 30-38 (`u64` as `Nat`, `i64` as `Int`). -/
structure Block where
  id : Nat
  hash : String
  prev_hash : String
  timestamp : Int
  data : String
  nonce : Nat
deriving Repr, DecidableEq

/-- The predicate `mine_block` searches for: the digest of the block fields
at this nonce renders to a binary string starting with the difficulty
target. -/
def mineable (id : Nat) (timestamp : Int) (prev_hash data : String) (nonce : Nat) : Prop :=
  DIFF_PREF.isPrefixOf (hash_to_bin (calc_hash id timestamp prev_hash data nonce)) = true

instance mineableDecidable (id : Nat) (timestamp : Int) (prev_hash data : String) :
    DecidablePred (mineable id timestamp prev_hash data) := fun _ => by
  unfold mineable; infer_instance

/-- `mine_block` from src/main.rs lines 61-85: brute-force search from nonce
0 upward for the first nonce whose digest meets the difficulty target,
returning that nonce with the hex encoding of the digest.  The Rust loop has
no exit when no nonce works, so the embedding takes the existence of a
satisfying nonce as a hypothesis and returns the least one (`Nat.find`). -/
def mine_block (id : Nat) (timestamp : Int) (prev_hash data : String)
    (h : ∃ n, mineable id timestamp prev_hash data n) : Nat × String :=
  (Nat.find h, hexEncode (calc_hash id timestamp prev_hash data (Nat.find h)))

/-- The block `set_genesis` (src/main.rs lines 95-105) pushes: every field
is a hardcoded literal except `timestamp`, which is `Utc::now().timestamp()`
— the wall clock at initialization, passed here as the `now` argument. -/
def genesis_block (now : Int) : Block :=
  { id := 0
    timestamp := now
    prev_hash := "genesis"
    data := "genesis!"
    nonce := 2836
    hash := "0000f816a87f806bb0073dcf026a64fb40c946b5abee2573702828694d5b4c43" }

/-- `set_genesis` from src/main.rs lines 95-105: pushes the genesis block
onto the ledger. -/
def set_genesis (now : Int) (blocks : List Block) : List Block :=
  blocks ++ [genesis_block now]

/-- `is_block_valid` from src/main.rs lines 108-134.  The four checks in
source order: predecessor hash link, difficulty of the (hex-decoded) stored
hash, id sequencing, and recomputed-hash comparison.  `hex::decode` failure
is the `expect` panic (`none`).  The fourth check only logs a warning: both
branches of the final `if` fall through to `return true`. -/
def is_block_valid (block prev : Block) : Option Bool :=
  if block.prev_hash ≠ prev.hash then some false
  else
    match hexDecode block.hash with
    | none => none
    | some bytes =>
      if DIFF_PREF.isPrefixOf (hash_to_bin bytes) = false then some false
      else if block.id ≠ prev.id + 1 then some false
      else if hexEncode (calc_hash block.id block.timestamp block.prev_hash block.data block.nonce)
                ≠ block.hash
      then some true
      else some true

/-- `try_add_block` from src/main.rs lines 136-144: `blocks.last()` is
unwrapped with `expect` (panic on an empty ledger, `none` here); a valid
block is pushed, an invalid one leaves the ledger unchanged. -/
def try_add_block (blocks : List Block) (block : Block) : Option (List Block) :=
  match blocks.getLast? with
  | none => none
  | some latest =>
    match is_block_valid block latest with
    | none => none
    | some true => some (blocks ++ [block])
    | some false => some blocks

/-- The loop body of `is_chain_valid`: walk the chain left to right holding
the previous block, failing on the first adjacent pair that does not
validate (mirrors the `for i in 0..chain.len()` loop over pairs
`(chain[i-1], chain[i])`). -/
def chainPairs : Block → List Block → Option Bool
  | _, [] => some true
  | prev, b :: rest =>
    match is_block_valid b prev with
    | none => none
    | some false => some false
    | some true => chainPairs b rest

/-- `is_chain_valid` from src/main.rs lines 147-159: vacuously true for the
empty and singleton chain, otherwise every adjacent pair must validate. -/
def is_chain_valid : List Block → Option Bool
  | [] => some true
  | b :: rest => chainPairs b rest

/-- `choose_chain` from src/main.rs lines 161-180: validate both chains
(local first, as the Rust code does), keep the longer of two valid chains
(ties go to local), keep the only valid one, and `panic!` (`none`) when
neither validates. -/
def choose_chain (localChain remoteChain : List Block) : Option (List Block) :=
  match is_chain_valid localChain with
  | none => none
  | some is_local_valid =>
    match is_chain_valid remoteChain with
    | none => none
    | some is_remote_valid =>
      if is_local_valid && is_remote_valid then
        if remoteChain.length ≤ localChain.length then some localChain else some remoteChain
      else if is_remote_valid && !is_local_valid then some remoteChain
      else if !is_remote_valid && is_local_valid then some localChain
      else none

/-! ### The gossip message handlers (src/p2p.rs) -/

/-- `ChainResponse` from src/p2p.rs lines 26-29. -/
structure ChainResponse where
  blocks : List Block
  receiver : String
deriving Repr, DecidableEq

/-- `LocalChainRequest` from src/p2p.rs lines 37-39. -/
structure LocalChainRequest where
  from_peer_id : String
deriving Repr, DecidableEq

/-- The `ChainResponse` arm of `inject_event` (src/p2p.rs lines 117-126):
only a response whose `receiver` equals this node's own peer id is acted
on, replacing the ledger with the fork-choice result; any other response
leaves the ledger untouched.  Returns the ledger after the event (`none`
for the `choose_chain` panic). -/
def handle_chain_response (selfId : String) (resp : ChainResponse) (blocks : List Block) :
    Option (List Block) :=
  if resp.receiver = selfId then choose_chain blocks resp.blocks
  else some blocks

/-- The `LocalChainRequest` arm of `inject_event` (src/p2p.rs lines
128-139): a `ChainResponse` carrying the full local chain, addressed to the
message's source, is sent only when the request's `from_peer_id` equals
this node's OWN peer id; otherwise nothing is sent (`none`). -/
def handle_local_chain_request (selfId source : String) (req : LocalChainRequest)
    (blocks : List Block) : Option ChainResponse :=
  if selfId = req.from_peer_id then some { blocks := blocks, receiver := source }
  else none

/-! ### Concrete material used by witnesses and counterexamples

The difficulty check only looks at the stored `hash` string (the recomputed
digest is compared but the comparison cannot reject, see `is_block_valid`),
so blocks whose `hash` is the four-character hex string `"0000"` — two zero
bytes — pass the difficulty check and chain together whenever the ids and
`prev_hash` links line up. -/

/-- A block of a small synthetic chain: id `i`, stored hash `"0000"`,
linked to its predecessor's stored hash. -/
def blkA (i : Nat) : Block :=
  { id := i
    hash := "0000"
    prev_hash := if i = 0 then "g" else "0000"
    timestamp := 0
    data := "d"
    nonce := i }

/-- A synthetic valid chain of length 3. -/
def chain3 : List Block := [blkA 0, blkA 1, blkA 2]

/-- A synthetic valid chain of length 5. -/
def chain5 : List Block := [blkA 0, blkA 1, blkA 2, blkA 3, blkA 4]

/-- A ledger tail whose stored hash is the decodable hex string `"ab"`. -/
def tailBlk : Block :=
  { id := 0, hash := "ab", prev_hash := "g", timestamp := 0, data := "", nonce := 0 }

/-- A remote block that links to `tailBlk` but whose `hash` field is not
valid hex, so validating it reaches the `hex::decode(..).expect(..)`. -/
def badHashBlk : Block :=
  { id := 1, hash := "zz", prev_hash := "ab", timestamp := 0, data := "", nonce := 0 }

/-- A second ledger tail (decodable stored hash `"cd"`). -/
def tailBlk2 : Block :=
  { id := 4, hash := "cd", prev_hash := "0000", timestamp := 7, data := "e", nonce := 1 }

/-- A second hex-undecodable block, linked to `tailBlk2`. -/
def badHashBlk2 : Block :=
  { id := 5, hash := "q!", prev_hash := "cd", timestamp := 7, data := "f", nonce := 2 }

/-- The validation relation between adjacent blocks, predecessor first:
what one `is_block_valid` call of the `is_chain_valid` loop establishes. -/
def validStep (a b : Block) : Prop := is_block_valid b a = some true

/-! ### Sanity checks of the embedding against reference values -/

theorem binDigits_renders_unpadded :
    binDigits 0 = ['0'] ∧ binDigits 5 = ['1', '0', '1'] ∧ binDigits 255 = ['1', '1', '1', '1', '1', '1', '1', '1'] := by
  decide

theorem hexDecode_examples :
    hexDecode "00ff" = some [0, 255] ∧ hexDecode "zz" = none ∧ hexDecode "abc" = none ∧
    hexEncode [0, 255, 26] = "00ff1a" := by
  decide

/-- The embedded SHA-256 reproduces the FIPS 180 test vector for `"abc"`. -/
theorem sha256_test_vector :
    hexEncode (sha256 (utf8Bytes "abc")) =
      "ba7816bf8f01cfea414140de5dae2223b00361a396177a9cb410ff61f20015ad" := by
  decide

/-- A satisfying nonce exists for the inputs `(1, 0, "genesis", "x")`:
nonce 20722 is one (its digest starts with two zero bytes). -/
theorem mineable_example : ∃ n, mineable 1 0 "genesis" "x" n :=
  ⟨20722, by decide⟩

/-! ### Helper lemmas: binary rendering and the difficulty predicate -/

theorem binCore_zero (fuel : Nat) (acc : List Char) : binCore fuel 0 acc = acc := by
  cases fuel <;> simp [binCore]

theorem binCore_append (fuel : Nat) :
    ∀ n acc, binCore fuel n acc = binCore fuel n [] ++ acc := by
  induction fuel with
  | zero => intro n acc; simp [binCore]
  | succ f ih =>
    intro n acc
    by_cases h : n = 0
    · simp [binCore, h]
    · simp only [binCore, if_neg h]
      rw [ih (n / 2) ((if n % 2 = 1 then '1' else '0') :: acc),
          ih (n / 2) [if n % 2 = 1 then '1' else '0']]
      simp

theorem binCore_head (fuel : Nat) :
    ∀ n, 0 < n → n ≤ fuel → ∃ t, binCore fuel n [] = '1' :: t := by
  induction fuel with
  | zero => intro n h1 h2; omega
  | succ f ih =>
    intro n h1 h2
    have hn : n ≠ 0 := Nat.pos_iff_ne_zero.mp h1
    simp only [binCore, if_neg hn]
    by_cases hq : n / 2 = 0
    · have h1' : n = 1 := by omega
      subst h1'
      rw [binCore_zero]
      exact ⟨[], rfl⟩
    · have hle : n / 2 ≤ f := by omega
      obtain ⟨t, ht⟩ := ih (n / 2) (Nat.pos_of_ne_zero hq) hle
      rw [binCore_append f (n / 2) [if n % 2 = 1 then '1' else '0'], ht]
      exact ⟨t ++ [if n % 2 = 1 then '1' else '0'], rfl⟩

theorem binDigits_pos (n : Nat) (h : 0 < n) : ∃ t, binDigits n = '1' :: t := by
  match n, h with
  | m+1, _ => exact binCore_head (m+1) (m+1) (Nat.succ_pos m) (Nat.le_refl _)

theorem hash_to_bin_cons (b : Nat) (rest : List Nat) :
    hash_to_bin (b :: rest) = binDigits b ++ hash_to_bin rest := by
  simp [hash_to_bin]

/-- The difficulty comparison holds of exactly the character lists starting
with two `'0'` characters. -/
theorem diff_pref_iff (l : List Char) :
    DIFF_PREF.isPrefixOf l = true ↔ ∃ t, l = '0' :: '0' :: t := by
  match l with
  | [] => simp [DIFF_PREF, List.isPrefixOf]
  | [a] => simp [DIFF_PREF, List.isPrefixOf]
  | a :: b :: t =>
    show (('0' == a) && (('0' == b) && List.isPrefixOf [] t)) = true ↔ _
    simp only [List.isPrefixOf, Bool.and_true, Bool.and_eq_true, beq_iff_eq, List.cons.injEq]
    constructor
    · rintro ⟨h1, h2⟩; exact ⟨t, h1.symm, h2.symm, rfl⟩
    · rintro ⟨t', h1, h2, _⟩; exact ⟨h1.symm, h2.symm⟩

/-- On a digest of length at least two, the unpadded rendering starts with
`"00"` exactly when the first two bytes are both zero. -/
theorem diff_pref_hash_to_bin (b0 b1 : Nat) (rest : List Nat) :
    DIFF_PREF.isPrefixOf (hash_to_bin (b0 :: b1 :: rest)) = true ↔ b0 = 0 ∧ b1 = 0 := by
  rw [hash_to_bin_cons, hash_to_bin_cons, diff_pref_iff]
  constructor
  · rintro ⟨t, ht⟩
    by_cases h0 : b0 = 0
    · subst h0
      by_cases h1 : b1 = 0
      · exact ⟨rfl, h1⟩
      · obtain ⟨t1, ht1⟩ := binDigits_pos b1 (Nat.pos_of_ne_zero h1)
        rw [show binDigits 0 = ['0'] from rfl, ht1] at ht
        simp at ht
    · obtain ⟨t0, ht0⟩ := binDigits_pos b0 (Nat.pos_of_ne_zero h0)
      rw [ht0] at ht
      simp at ht
  · rintro ⟨h0, h1⟩
    subst h0; subst h1
    exact ⟨hash_to_bin rest, rfl⟩

/-! ### Helper lemmas: block validation -/

/-- The recomputed-hash comparison cannot change the verdict: both branches
of the final `if` in `is_block_valid` return `true`, so the function is the
first three checks followed by `some true`. -/
theorem is_block_valid_unfold (block prev : Block) :
    is_block_valid block prev =
      (if block.prev_hash ≠ prev.hash then some false
       else match hexDecode block.hash with
            | none => none
            | some bytes =>
              if DIFF_PREF.isPrefixOf (hash_to_bin bytes) = false then some false
              else if block.id ≠ prev.id + 1 then some false
              else some true) := by
  by_cases h1 : block.prev_hash ≠ prev.hash
  · simp [is_block_valid, h1]
  · cases h2 : hexDecode block.hash with
    | none => simp [is_block_valid, h1, h2]
    | some bytes =>
      by_cases h3 : DIFF_PREF.isPrefixOf (hash_to_bin bytes) = false
      · simp [is_block_valid, h1, h2, h3]
      · by_cases h4 : block.id ≠ prev.id + 1
        · simp [is_block_valid, h1, h2, h3, h4]
        · simp [is_block_valid, h1, h2, h3, h4, ite_self]

theorem is_block_valid_wrong_prev (block prev : Block) (h : block.prev_hash ≠ prev.hash) :
    is_block_valid block prev = some false := by
  rw [is_block_valid_unfold, if_pos h]

theorem is_block_valid_bad_difficulty (block prev : Block) (bytes : List Nat)
    (h1 : block.prev_hash = prev.hash) (h2 : hexDecode block.hash = some bytes)
    (h3 : DIFF_PREF.isPrefixOf (hash_to_bin bytes) = false) :
    is_block_valid block prev = some false := by
  rw [is_block_valid_unfold]
  simp [h1, h2, h3]

theorem is_block_valid_bad_id (block prev : Block) (bytes : List Nat)
    (h1 : block.prev_hash = prev.hash) (h2 : hexDecode block.hash = some bytes)
    (h3 : DIFF_PREF.isPrefixOf (hash_to_bin bytes) = true) (h4 : block.id ≠ prev.id + 1) :
    is_block_valid block prev = some false := by
  rw [is_block_valid_unfold]
  simp [h1, h2, h3, h4]

theorem is_block_valid_true (block prev : Block) (bytes : List Nat)
    (h1 : block.prev_hash = prev.hash) (h2 : hexDecode block.hash = some bytes)
    (h3 : DIFF_PREF.isPrefixOf (hash_to_bin bytes) = true) (h4 : block.id = prev.id + 1) :
    is_block_valid block prev = some true := by
  rw [is_block_valid_unfold]
  simp [h1, h2, h3, h4]

theorem is_block_valid_panic (block prev : Block)
    (h1 : block.prev_hash = prev.hash) (h2 : hexDecode block.hash = none) :
    is_block_valid block prev = none := by
  rw [is_block_valid_unfold]
  simp [h1, h2]

/-- The only panic in `is_block_valid` is the hex decode of the stored
hash, reached only after the predecessor-hash check succeeds. -/
theorem is_block_valid_isSome (block prev : Block)
    (h : block.prev_hash ≠ prev.hash ∨ (hexDecode block.hash).isSome = true) :
    (is_block_valid block prev).isSome = true := by
  rw [is_block_valid_unfold]
  by_cases h1 : block.prev_hash ≠ prev.hash
  · simp [h1]
  · cases h2 : hexDecode block.hash with
    | none =>
      rcases h with h | h
      · exact absurd h h1
      · rw [h2] at h; simp at h
    | some bytes =>
      simp only [if_neg h1]
      by_cases h3 : DIFF_PREF.isPrefixOf (hash_to_bin bytes) = false
      · simp [h3]
      · by_cases h4 : block.id ≠ prev.id + 1 <;> simp [h3, h4]

/-! ### Helper lemmas: chain validation and fork choice -/

theorem chainPairs_iff (l : List Block) :
    ∀ prev, chainPairs prev l = some true ↔ List.Chain' validStep (prev :: l) := by
  induction l with
  | nil => intro prev; simp [chainPairs]
  | cons b rest ih =>
    intro prev
    rw [List.chain'_cons]
    unfold chainPairs
    cases h : is_block_valid b prev with
    | none => simp [validStep, h]
    | some v =>
      cases v
      · simp [validStep, h]
      · simp [validStep, h, ih b]

theorem is_chain_valid_iff (chain : List Block) :
    is_chain_valid chain = some true ↔ List.Chain' validStep chain := by
  cases chain with
  | nil => simp [is_chain_valid]
  | cons b rest => exact chainPairs_iff rest b

theorem is_chain_valid_short (chain : List Block) (h : chain.length ≤ 1) :
    is_chain_valid chain = some true := by
  match chain, h with
  | [], _ => rfl
  | [b], _ => rfl

theorem is_chain_valid_append (chain : List Block) (b last : Block)
    (hv : is_chain_valid chain = some true) (hl : chain.getLast? = some last)
    (hb : is_block_valid b last = some true) :
    is_chain_valid (chain ++ [b]) = some true := by
  rw [is_chain_valid_iff] at hv ⊢
  rw [List.chain'_append]
  refine ⟨hv, List.chain'_singleton b, ?_⟩
  intro x hx y hy
  rw [hl] at hx
  simp only [Option.mem_def, Option.some.injEq] at hx
  simp only [List.head?_cons, Option.mem_def, Option.some.injEq] at hy
  subst hx; subst hy
  exact hb

/-- `choose_chain` once the two validation verdicts are known. -/
theorem choose_chain_eval (localChain remoteChain : List Block) (l r : Bool)
    (hl : is_chain_valid localChain = some l) (hr : is_chain_valid remoteChain = some r) :
    choose_chain localChain remoteChain =
      (if l && r then
        (if remoteChain.length ≤ localChain.length then some localChain else some remoteChain)
       else if r && !l then some remoteChain
       else if !r && l then some localChain
       else none) := by
  simp [choose_chain, hl, hr]

/-- `try_add_block` once the ledger tail is known. -/
theorem try_add_block_eval (blocks : List Block) (block latest : Block)
    (h : blocks.getLast? = some latest) :
    try_add_block blocks block =
      (match is_block_valid block latest with
       | none => none
       | some true => some (blocks ++ [block])
       | some false => some blocks) := by
  simp [try_add_block, h]

/-! ### Helper lemmas: hex round trip and digest byte bounds -/

theorem hexDigitVal_hexChar : ∀ d < 16, hexDigitVal (hexChar d) = some d := by decide

theorem hexDecodeList_encode (bs : List Nat) (h : ∀ b ∈ bs, b < 256) :
    hexDecodeList ((bs.map (fun b => [hexChar (b / 16), hexChar (b % 16)])).flatten) = some bs := by
  induction bs with
  | nil => rfl
  | cons b rest ih =>
    have hb : b < 256 := h b (List.mem_cons_self b rest)
    have hrest : ∀ x ∈ rest, x < 256 := fun x hx => h x (List.mem_cons_of_mem b hx)
    show hexDecodeList (hexChar (b / 16) :: hexChar (b % 16) ::
      (rest.map (fun b => [hexChar (b / 16), hexChar (b % 16)])).flatten) = _
    unfold hexDecodeList
    rw [hexDigitVal_hexChar (b / 16) (by omega), hexDigitVal_hexChar (b % 16) (by omega),
        ih hrest]
    show some ((16 * (b / 16) + b % 16) :: rest) = some (b :: rest)
    have : 16 * (b / 16) + b % 16 = b := by omega
    rw [this]

theorem hexDecode_hexEncode (bs : List Nat) (h : ∀ b ∈ bs, b < 256) :
    hexDecode (hexEncode bs) = some bs :=
  hexDecodeList_encode bs h

theorem be4_lt (w : Nat) : ∀ b ∈ be4 w, b < 256 := by
  intro b hb
  simp only [be4, List.mem_cons, List.not_mem_nil, or_false] at hb
  rcases hb with h | h | h | h <;> subst h <;> omega

theorem sha256_bytes_lt (msg : List Nat) : ∀ b ∈ sha256 msg, b < 256 := by
  intro b hb
  unfold sha256 at hb
  simp only [List.mem_flatten, List.mem_map] at hb
  obtain ⟨l, ⟨w, _, rfl⟩, hbl⟩ := hb
  exact be4_lt w b hbl

theorem calc_hash_bytes_lt (id : Nat) (timestamp : Int) (prev_hash data : String) (nonce : Nat) :
    ∀ b ∈ calc_hash id timestamp prev_hash data nonce, b < 256 :=
  sha256_bytes_lt _

/-! ### The claims -/

/-- C1: `is_block_valid` performs its checks in source order, short-circuiting
to `some false` on the first failure — predecessor-hash link, then difficulty
of the hex-decoded stored hash, then id sequencing — and once those three
pass it returns `some true` with no condition on the recomputed hash (the
fourth check can only log); in particular a `prev_hash` mismatch yields
`some false` regardless of every other field. -/
theorem c1_is_block_valid_check_order (block prev : Block) :
    (block.prev_hash ≠ prev.hash → is_block_valid block prev = some false) ∧
    (∀ bytes, block.prev_hash = prev.hash → hexDecode block.hash = some bytes →
      DIFF_PREF.isPrefixOf (hash_to_bin bytes) = false →
      is_block_valid block prev = some false) ∧
    (∀ bytes, block.prev_hash = prev.hash → hexDecode block.hash = some bytes →
      DIFF_PREF.isPrefixOf (hash_to_bin bytes) = true → block.id ≠ prev.id + 1 →
      is_block_valid block prev = some false) ∧
    (∀ bytes, block.prev_hash = prev.hash → hexDecode block.hash = some bytes →
      DIFF_PREF.isPrefixOf (hash_to_bin bytes) = true → block.id = prev.id + 1 →
      is_block_valid block prev = some true) :=
  ⟨is_block_valid_wrong_prev block prev,
   fun bytes h1 h2 h3 => is_block_valid_bad_difficulty block prev bytes h1 h2 h3,
   fun bytes h1 h2 h3 h4 => is_block_valid_bad_id block prev bytes h1 h2 h3 h4,
   fun bytes h1 h2 h3 h4 => is_block_valid_true block prev bytes h1 h2 h3 h4⟩

/-- Witness for C1: `blkA 1` atop `blkA 0` passes the first three checks
while its recomputed hash differs from the stored `"0000"`, and
`is_block_valid` still accepts it. -/
theorem c1_witness :
    (blkA 1).prev_hash = (blkA 0).hash ∧
    hexDecode (blkA 1).hash = some [0, 0] ∧
    DIFF_PREF.isPrefixOf (hash_to_bin [0, 0]) = true ∧
    (blkA 1).id = (blkA 0).id + 1 ∧
    hexEncode (calc_hash (blkA 1).id (blkA 1).timestamp (blkA 1).prev_hash (blkA 1).data
      (blkA 1).nonce) ≠ (blkA 1).hash ∧
    is_block_valid (blkA 1) (blkA 0) = some true :=
  ⟨by decide, by decide, by decide, by decide, by decide,
   (c1_is_block_valid_check_order (blkA 1) (blkA 0)).2.2.2 [0, 0]
     (by decide) (by decide) (by decide) (by decide)⟩

/-- C2: `choose_chain` keeps the longer of two valid chains, the local one
on a tie, the only valid one when exactly one validates, and panics
(`none`) when neither validates. -/
theorem c2_choose_chain_fork_choice (localChain remoteChain : List Block) :
    (is_chain_valid localChain = some true → is_chain_valid remoteChain = some true →
      remoteChain.length ≤ localChain.length →
      choose_chain localChain remoteChain = some localChain) ∧
    (is_chain_valid localChain = some true → is_chain_valid remoteChain = some true →
      localChain.length < remoteChain.length →
      choose_chain localChain remoteChain = some remoteChain) ∧
    (is_chain_valid localChain = some false → is_chain_valid remoteChain = some true →
      choose_chain localChain remoteChain = some remoteChain) ∧
    (is_chain_valid localChain = some true → is_chain_valid remoteChain = some false →
      choose_chain localChain remoteChain = some localChain) ∧
    (is_chain_valid localChain = some false → is_chain_valid remoteChain = some false →
      choose_chain localChain remoteChain = none) := by
  refine ⟨?_, ?_, ?_, ?_, ?_⟩ <;> intro hl hr
  · intro hlen; rw [choose_chain_eval _ _ _ _ hl hr]; simp [hlen]
  · intro hlen
    rw [choose_chain_eval _ _ _ _ hl hr]
    simp [Nat.not_le.mpr hlen]
  · rw [choose_chain_eval _ _ _ _ hl hr]; simp
  · rw [choose_chain_eval _ _ _ _ hl hr]; simp
  · rw [choose_chain_eval _ _ _ _ hl hr]; simp

/-- Witness for C2: two mutually valid chains of lengths 3 and 5; the
fork-choice returns the length-5 chain. -/
theorem c2_witness :
    is_chain_valid chain3 = some true ∧ is_chain_valid chain5 = some true ∧
    chain3.length = 3 ∧ chain5.length = 5 ∧
    choose_chain chain3 chain5 = some chain5 :=
  ⟨by decide, by decide, by decide, by decide,
   (c2_choose_chain_fork_choice chain3 chain5).2.1 (by decide) (by decide) (by decide)⟩

/-- C3: the per-byte binary rendering drops leading zero bits, so on any
digest of length at least two the `"00"` prefix test succeeds exactly when
the first two bytes are both zero; consequently some digests whose leading
byte has two or more leading zero bits (value below 64) — the intended
difficulty — are rejected, e.g. the digest starting `0x01 0x00`. -/
theorem c3_difficulty_unpadded :
    (∀ (b0 b1 : Nat) (rest : List Nat),
      DIFF_PREF.isPrefixOf (hash_to_bin (b0 :: b1 :: rest)) = true ↔ b0 = 0 ∧ b1 = 0) ∧
    (∃ bs : List Nat, 2 ≤ bs.length ∧ bs.headD 0 < 64 ∧
      DIFF_PREF.isPrefixOf (hash_to_bin bs) = false) :=
  ⟨diff_pref_hash_to_bin, ⟨[1, 0], by decide, by decide, by decide⟩⟩

/-- Witness for C3: the characterization evaluated on the concrete digests
`[0, 0, 255]` (accepted) and `[63, 0]` (two leading zero bits, rejected). -/
theorem c3_witness :
    (DIFF_PREF.isPrefixOf (hash_to_bin ([0, 0, 255] : List Nat)) = true ↔ 0 = 0 ∧ 0 = 0) ∧
    (DIFF_PREF.isPrefixOf (hash_to_bin ([63, 0] : List Nat)) = true ↔ 63 = 0 ∧ 0 = 0) :=
  ⟨c3_difficulty_unpadded.1 0 0 [255], c3_difficulty_unpadded.1 63 0 []⟩

/-- C4 counterexample: the genesis block is not identical across two runs —
`set_genesis` timestamps it with the wall clock, so runs started at clock
values 0 and 1 produce different ledgers. -/
theorem c4_counterexample : set_genesis 0 [] ≠ set_genesis 1 [] := by decide

/-- C4 amended: `set_genesis` appends a genesis block whose id (0),
`prev_hash` (`"genesis"`), data, nonce and hash are hardcoded and identical
across runs, but whose timestamp is the wall clock at initialization, so
the appended block is identical between two runs exactly when the two
clock readings coincide. -/
theorem c4_genesis_fixed_except_timestamp (now now' : Int) (blocks : List Block) :
    set_genesis now blocks = blocks ++ [genesis_block now] ∧
    (genesis_block now).id = 0 ∧
    (genesis_block now).prev_hash = "genesis" ∧
    (genesis_block now).data = "genesis!" ∧
    (genesis_block now).nonce = 2836 ∧
    (genesis_block now).hash =
      "0000f816a87f806bb0073dcf026a64fb40c946b5abee2573702828694d5b4c43" ∧
    (genesis_block now).timestamp = now ∧
    (genesis_block now = genesis_block now' ↔ now = now') := by
  refine ⟨rfl, rfl, rfl, rfl, rfl, rfl, rfl, ?_⟩
  constructor
  · intro h; exact congrArg Block.timestamp h
  · intro h; rw [h]

/-- Witness for C4: the amended statement at the concrete clock readings 5
and 9. -/
theorem c4_witness :
    set_genesis 5 [] = [] ++ [genesis_block 5] ∧ (genesis_block 5).timestamp = 5 ∧
    (genesis_block 5 = genesis_block 9 ↔ (5 : Int) = 9) :=
  ⟨(c4_genesis_fixed_except_timestamp 5 9 []).1,
   (c4_genesis_fixed_except_timestamp 5 9 []).2.2.2.2.2.2.1,
   (c4_genesis_fixed_except_timestamp 5 9 []).2.2.2.2.2.2.2⟩

/-- C5 counterexample: an inbound block whose `prev_hash` matches the tail
but whose `hash` field is not valid hex makes `try_add_block` reach the
`hex::decode(..).expect(..)` panic — handling an inbound `Block` can crash
the process. -/
theorem c5_counterexample : try_add_block [tailBlk] badHashBlk = none := by decide

/-- C5 amended: with a non-empty ledger, a block that validates is appended
and a block that fails validation leaves the ledger unchanged; but when the
block's `prev_hash` matches the tail's hash and its `hash` is not decodable
hex, handling panics instead of rejecting. -/
theorem c5_try_add_block_behavior (blocks : List Block) (block latest : Block)
    (h : blocks.getLast? = some latest) :
    (is_block_valid block latest = some true →
      try_add_block blocks block = some (blocks ++ [block])) ∧
    (is_block_valid block latest = some false → try_add_block blocks block = some blocks) ∧
    (block.prev_hash = latest.hash → hexDecode block.hash = none →
      try_add_block blocks block = none) := by
  refine ⟨?_, ?_, ?_⟩
  · intro hv; rw [try_add_block_eval blocks block latest h, hv]
  · intro hv; rw [try_add_block_eval blocks block latest h, hv]
  · intro h1 h2
    rw [try_add_block_eval blocks block latest h, is_block_valid_panic block latest h1 h2]

/-- Witness for C5: appending the valid `blkA 1` onto the ledger
`[blkA 0]`. -/
theorem c5_witness :
    [blkA 0].getLast? = some (blkA 0) ∧ is_block_valid (blkA 1) (blkA 0) = some true ∧
    try_add_block [blkA 0] (blkA 1) = some [blkA 0, blkA 1] :=
  ⟨by decide, by decide,
   (c5_try_add_block_behavior [blkA 0] (blkA 1) (blkA 0) (by decide)).1 (by decide)⟩

/-- C6 counterexample: a genuine external chain request (the requester puts
its own id in `from_peer_id`, which differs from this node's id) is never
answered — no `ChainResponse` is sent. -/
theorem c6_counterexample :
    handle_local_chain_request "selfA" "peerB" { from_peer_id := "peerB" } [] = none := by
  decide

/-- C6 amended: the node answers a `LocalChainRequest` — with its full
chain, addressed to the message source — only when the request's
`from_peer_id` equals this node's OWN identifier; every other request is
ignored. -/
theorem c6_local_chain_request_behavior (selfId source : String) (req : LocalChainRequest)
    (blocks : List Block) :
    (req.from_peer_id = selfId →
      handle_local_chain_request selfId source req blocks =
        some { blocks := blocks, receiver := source }) ∧
    (req.from_peer_id ≠ selfId →
      handle_local_chain_request selfId source req blocks = none) := by
  constructor
  · intro h; unfold handle_local_chain_request; rw [if_pos h.symm]
  · intro h; unfold handle_local_chain_request; rw [if_neg fun hh => h hh.symm]

/-- Witness for C6: a request carrying this node's own id is answered with
the full chain, addressed to the source peer. -/
theorem c6_witness :
    ({ from_peer_id := "selfA" } : LocalChainRequest).from_peer_id = "selfA" ∧
    handle_local_chain_request "selfA" "peerB" { from_peer_id := "selfA" } [blkA 0] =
      some { blocks := [blkA 0], receiver := "peerB" } :=
  ⟨rfl, (c6_local_chain_request_behavior "selfA" "peerB" _ [blkA 0]).1 rfl⟩

/-- C7: when some nonce satisfies the difficulty predicate, `mine_block`
returns the least such nonce together with the hex encoding of the digest
at that nonce; re-hashing the same inputs at the returned nonce reproduces
the returned hash, and the returned hash hex-decodes back to a digest
satisfying the difficulty predicate. -/
theorem c7_mine_block_correct (id : Nat) (timestamp : Int) (prev_hash data : String)
    (h : ∃ n, mineable id timestamp prev_hash data n) :
    mineable id timestamp prev_hash data (mine_block id timestamp prev_hash data h).1 ∧
    (∀ m < (mine_block id timestamp prev_hash data h).1,
      ¬ mineable id timestamp prev_hash data m) ∧
    (mine_block id timestamp prev_hash data h).2 =
      hexEncode (calc_hash id timestamp prev_hash data
        (mine_block id timestamp prev_hash data h).1) ∧
    hexDecode (mine_block id timestamp prev_hash data h).2 =
      some (calc_hash id timestamp prev_hash data
        (mine_block id timestamp prev_hash data h).1) := by
  refine ⟨Nat.find_spec h, ?_, rfl, ?_⟩
  · intro m hm
    exact Nat.find_min h hm
  · exact hexDecode_hexEncode _ (calc_hash_bytes_lt _ _ _ _ _)

/-- Witness for C7: mining at the inputs `(1, 0, "genesis", "x")`, where
nonce 20722 satisfies the predicate. -/
theorem c7_witness :
    (∃ n, mineable 1 0 "genesis" "x" n) ∧
    (mineable 1 0 "genesis" "x" (mine_block 1 0 "genesis" "x" mineable_example).1 ∧
     (∀ m < (mine_block 1 0 "genesis" "x" mineable_example).1,
       ¬ mineable 1 0 "genesis" "x" m) ∧
     (mine_block 1 0 "genesis" "x" mineable_example).2 =
       hexEncode (calc_hash 1 0 "genesis" "x" (mine_block 1 0 "genesis" "x" mineable_example).1) ∧
     hexDecode (mine_block 1 0 "genesis" "x" mineable_example).2 =
       some (calc_hash 1 0 "genesis" "x" (mine_block 1 0 "genesis" "x" mineable_example).1)) :=
  ⟨mineable_example, c7_mine_block_correct 1 0 "genesis" "x" mineable_example⟩

/-- C8: an inbound `ChainResponse` addressed to another receiver leaves the
ledger exactly as it was; only a response addressed to this node replaces
the ledger with the fork-choice of the current ledger and the received
blocks. -/
theorem c8_chain_response_frame (selfId : String) (resp : ChainResponse) (blocks : List Block) :
    (resp.receiver ≠ selfId → handle_chain_response selfId resp blocks = some blocks) ∧
    (resp.receiver = selfId →
      handle_chain_response selfId resp blocks = choose_chain blocks resp.blocks) := by
  constructor
  · intro h; unfold handle_chain_response; rw [if_neg h]
  · intro h; unfold handle_chain_response; rw [if_pos h]

/-- Witness for C8: a response addressed to `"peerB"` arriving at
`"selfA"` leaves the ledger unchanged. -/
theorem c8_witness :
    ({ blocks := chain5, receiver := "peerB" } : ChainResponse).receiver ≠ "selfA" ∧
    handle_chain_response "selfA" { blocks := chain5, receiver := "peerB" } chain3 =
      some chain3 :=
  ⟨by decide, (c8_chain_response_frame "selfA" _ chain3).1 (by decide)⟩

/-- C9: `is_chain_valid` accepts every chain of length at most one, accepts
a chain exactly when every adjacent pair validates (`List.Chain'` of
`validStep`), and is preserved by appending a block that validates against
the current tail — so chains built solely by sequential valid appends
validate. -/
theorem c9_is_chain_valid_spec :
    (∀ chain : List Block, chain.length ≤ 1 → is_chain_valid chain = some true) ∧
    (∀ chain : List Block,
      is_chain_valid chain = some true ↔ List.Chain' validStep chain) ∧
    (∀ (chain : List Block) (b last : Block), is_chain_valid chain = some true →
      chain.getLast? = some last → is_block_valid b last = some true →
      is_chain_valid (chain ++ [b]) = some true) :=
  ⟨is_chain_valid_short, is_chain_valid_iff, is_chain_valid_append⟩

/-- Witness for C9: appending the valid `blkA 3` onto the valid length-3
chain keeps the chain valid. -/
theorem c9_witness :
    is_chain_valid chain3 = some true ∧ chain3.getLast? = some (blkA 2) ∧
    is_block_valid (blkA 3) (blkA 2) = some true ∧
    is_chain_valid (chain3 ++ [blkA 3]) = some true :=
  ⟨by decide, by decide, by decide,
   c9_is_chain_valid_spec.2.2 chain3 (blkA 3) (blkA 2) (by decide) (by decide) (by decide)⟩

/-- C10 counterexample: the non-empty-ledger precondition does not make
`try_add_block` total — on the non-empty ledger `[tailBlk2]` the block
`badHashBlk2` (matching `prev_hash`, hex-undecodable `hash`) still panics
inside `is_block_valid`. -/
theorem c10_counterexample :
    [tailBlk2] ≠ ([] : List Block) ∧ try_add_block [tailBlk2] badHashBlk2 = none :=
  ⟨by decide, by decide⟩

/-- C10 amended: on an empty ledger `try_add_block` panics at
`blocks.last().expect(..)`; on a non-empty ledger that unwrap cannot fire,
and the call is total provided the block's `prev_hash` differs from the
tail's hash or its `hash` field is decodable hex (otherwise the hex-decode
`expect` inside `is_block_valid` still panics). -/
theorem c10_try_add_block_totality (blocks : List Block) (block : Block) :
    (try_add_block [] block = none) ∧
    (∀ latest, blocks.getLast? = some latest →
      (block.prev_hash ≠ latest.hash ∨ (hexDecode block.hash).isSome = true) →
      (try_add_block blocks block).isSome = true) := by
  constructor
  · rfl
  · intro latest hl hcond
    rw [try_add_block_eval blocks block latest hl]
    have hs := is_block_valid_isSome block latest hcond
    cases h : is_block_valid block latest with
    | none => rw [h] at hs; simp at hs
    | some v => cases v <;> simp

/-- Witness for C10: the empty ledger panics, while a decodable candidate
on the ledger `[blkA 0]` is handled without panicking. -/
theorem c10_witness :
    [blkA 0].getLast? = some (blkA 0) ∧
    ((blkA 1).prev_hash ≠ (blkA 0).hash ∨ (hexDecode (blkA 1).hash).isSome = true) ∧
    (try_add_block [blkA 0] (blkA 1)).isSome = true ∧
    try_add_block [] (blkA 1) = none :=
  ⟨by decide, by decide,
   (c10_try_add_block_totality [blkA 0] (blkA 1)).2 (blkA 0) (by decide) (by decide),
   (c10_try_add_block_totality [] (blkA 1)).1⟩

end SimpleChain
